import Mathlib

set_option maxRecDepth 10000

/-!
Verification development for the KERNL semantic indexing and retrieval engine.

The TypeScript sources are shallowly embedded:
* `Float32Array` vectors are modelled at two levels: as lists of 32-bit
  patterns (`List ℕ`, each element `< 2^32`) where the byte codec is at stake,
  and as lists of exact numbers (`List ℚ` or `List ℝ`) where the arithmetic
  of similarity scores is at stake (IEEE values are a subset of the rationals;
  the comparisons and branch structure of the code are preserved exactly).
* `Buffer`s are lists of bytes (`List ℕ`, each `< 256`).
* Fallible operations (`throw`, rejected promises) are `Except String`.
* The SQLite database and the filesystem are passed in explicitly as data;
  the opaque embedding model (`embed`) is passed in as the vector it returns.
-/

namespace KERNL

/-! ## Vector codec (src/intelligence/embeddings.ts)

`serializeEmbedding(embedding) = Buffer.from(embedding.buffer)` lays out each
float32 element as four bytes in platform order; `deserializeEmbedding` is
`new Float32Array(buffer.buffer, buffer.byteOffset, buffer.length / 4)`, which
reads the same bytes back four at a time.  We model a float32 element by its
32-bit pattern and fix little-endian order (both directions use the platform's
native order, so the choice does not affect the round trip). -/

/-- The four bytes of a 32-bit word, least significant first. -/
def word32Bytes (w : ℕ) : List ℕ :=
  [w % 256, w / 256 % 256, w / 65536 % 256, w / 16777216 % 256]

/-- `serializeEmbedding`: the flat byte image of a float32 array
(`Buffer.from(embedding.buffer)`). -/
def serializeEmbedding (v : List ℕ) : List ℕ :=
  (v.map word32Bytes).flatten

/-- `deserializeEmbedding`: reinterpret a byte buffer as a float32 array
(`new Float32Array(buffer.buffer, buffer.byteOffset, buffer.length / 4)`);
bytes are consumed four at a time.  A trailing fragment of fewer than four
bytes cannot arise from a serialized vector. -/
def deserializeEmbedding : List ℕ → List ℕ
  | b0 :: b1 :: b2 :: b3 :: rest =>
      (b0 + 256 * b1 + 65536 * b2 + 16777216 * b3) :: deserializeEmbedding rest
  | _ => []

theorem word32Bytes_recombine (w : ℕ) (hw : w < 4294967296) :
    w % 256 + 256 * (w / 256 % 256) + 65536 * (w / 65536 % 256) +
      16777216 * (w / 16777216 % 256) = w := by
  omega

/-! ## Embedding-side similarity (src/intelligence/embeddings.ts)

`cosineSimilarity` there is a raw dot product — the doc comment says
"Since embeddings are normalized, dot product = cosine similarity" — and it
throws when the dimensions differ. -/

/-- The dot-product loop `for i { dotProduct += (a[i] ?? 0) * (b[i] ?? 0) }`
(the loop runs to `a.length`; it is only reached when the lengths agree). -/
def dotProduct (a b : List ℚ) : ℚ :=
  (List.zipWith (fun x y => x * y) a b).sum

namespace Embeddings

/-- `cosineSimilarity` from embeddings.ts: throws on a length mismatch,
otherwise returns the raw dot product of the two vectors. -/
def cosineSimilarity (a b : List ℚ) : Except String ℚ :=
  if a.length ≠ b.length then
    .error ("Embedding dimensions do not match: " ++ toString a.length ++
      " vs " ++ toString b.length)
  else
    .ok (dotProduct a b)

end Embeddings

/-- A ranking candidate `{ id, embedding }` as passed to `findSimilar`. -/
structure Candidate (ι : Type) where
  id : ι
  embedding : List ℚ
  deriving Repr, DecidableEq

/-- A ranking result `{ id, similarity }` as returned by `findSimilar`. -/
structure SimMatch (ι : Type) where
  id : ι
  similarity : ℚ
  deriving Repr, DecidableEq

/-- The in-place `.sort((a, b) => b.similarity - a.similarity)`: descending
insertion sort on the similarity field (stable, as in modern JS engines). -/
def insertDesc {ι : Type} (m : SimMatch ι) : List (SimMatch ι) → List (SimMatch ι)
  | [] => [m]
  | x :: xs => if x.similarity < m.similarity then m :: x :: xs
               else x :: insertDesc m xs

/-- Descending sort by similarity. -/
def sortDesc {ι : Type} : List (SimMatch ι) → List (SimMatch ι)
  | [] => []
  | x :: xs => insertDesc x (sortDesc xs)

/-- The `candidates.map(candidate => ({ id, similarity: cosineSimilarity(...) }))`
pass of `findSimilar`: a throw from `cosineSimilarity` aborts the whole map. -/
def scoreAll {ι : Type} (queryEmbedding : List ℚ) :
    List (Candidate ι) → Except String (List (SimMatch ι))
  | [] => .ok []
  | c :: cs =>
    match Embeddings.cosineSimilarity queryEmbedding c.embedding with
    | .error e => .error e
    | .ok s =>
      match scoreAll queryEmbedding cs with
      | .error e => .error e
      | .ok rest => .ok (SimMatch.mk c.id s :: rest)

/-- `findSimilar(queryEmbedding, candidates, limit, minSimilarity)`:
score every candidate against the query (a throw from `cosineSimilarity`
propagates), drop scores below `minSimilarity`, sort descending, truncate
to `limit`. -/
def findSimilar {ι : Type} (queryEmbedding : List ℚ) (candidates : List (Candidate ι))
    (limit : ℕ) (minSimilarity : ℚ) : Except String (List (SimMatch ι)) :=
  match scoreAll queryEmbedding candidates with
  | .error e => .error e
  | .ok scored =>
    .ok ((sortDesc (scored.filter (fun r => minSimilarity ≤ r.similarity))).take limit)

/-! ## Database-side cosine similarity (src/storage/database.ts)

The file-local helper in database.ts computes the full cosine formula and
returns the sentinel `0` on a length mismatch or a zero denominator.  Floats
are modelled as exact reals; `Math.sqrt` is the real square root. -/

namespace Database

noncomputable def cosineSimilarity (a b : List ℝ) : ℝ :=
  if a.length ≠ b.length then 0
  else
    let dotP := (List.zipWith (fun x y => x * y) a b).sum
    let normA := (a.map (fun x => x * x)).sum
    let normB := (b.map (fun x => x * x)).sum
    let denominator := Real.sqrt normA * Real.sqrt normB
    if denominator = 0 then 0 else dotP / denominator

end Database

/-! ## Tool results (src/types/index.ts)

`ToolResult` is `{ success: true, data } | { success: false, error: {code, message} }`. -/

inductive ToolResult (α : Type) where
  | success (data : α)
  | failure (code : String) (message : String)
  deriving Repr, DecidableEq

/-- A row of the project registry (`db.getProject`). -/
structure Project where
  id : String
  path : String
  deriving Repr, DecidableEq

/-- A `file_index` row as used by `search_semantic`.  The stored `embedding`
column is the serialized Buffer; since the codec is a bijection (proved below
for the bit-level model), the row here carries the decoded vector directly,
`none` standing for SQL NULL. -/
structure IndexedFileRow where
  path : String
  embedding : Option (List ℚ)
  content_preview : Option String
  deriving Repr, DecidableEq

/-- One entry of the `results` array built by `search_semantic`. -/
structure SearchResultEntry where
  path : String
  relevance : ℚ
  preview : String
  deriving Repr, DecidableEq

/-- The `data` payload of a successful `search_semantic`. -/
structure SearchData where
  query : String
  matchCount : ℕ
  results : List SearchResultEntry
  deriving Repr, DecidableEq

/-- JavaScript `Math.round`: nearest integer, ties toward positive infinity. -/
def jsRound (x : ℚ) : ℤ := ⌊x + 1/2⌋

/-- The candidate filter of `search_semantic`: keep rows with a present
embedding, then — when `fileTypes` is supplied and non-empty — keep rows whose
path ends with one of the given extensions. -/
def eligibleCandidates (indexedFiles : List IndexedFileRow)
    (fileTypes : Option (List String)) : List IndexedFileRow :=
  let withEmbedding := indexedFiles.filter (fun f => f.embedding.isSome)
  match fileTypes with
  | some exts =>
      if exts.length > 0 then
        withEmbedding.filter (fun f => exts.any (fun ext => f.path.endsWith ext))
      else withEmbedding
  | none => withEmbedding

/-- The per-match result builder of `search_semantic`: look the match's path
up among the candidates and attach the rounded relevance and a 200-character
preview (`file?.content_preview?.substring(0, 200) || ''`). -/
def searchEntry (indexedFiles : List IndexedFileRow) (fileTypes : Option (List String))
    (m : SimMatch String) : SearchResultEntry :=
  { path := m.id
    relevance := (jsRound (m.similarity * 100) : ℚ) / 100
    preview := ((((eligibleCandidates indexedFiles fileTypes).find?
        (fun f => f.path == m.id)).bind (fun f => f.content_preview)).map
        (fun s => s.take 200)).getD "" }

/-- The `search_semantic` handler (src/tools/semantic-search.ts).  External
effects appear as parameters: `projectInfo` is the registry lookup for the
requested project, `indexedFiles` is `db.getIndexedFiles(project)`, and
`queryEmbedding` is the vector the opaque model returns for `query`.  The
outer `Except` is a thrown exception (the handler has no try/catch, so a
`findSimilar` throw escapes). -/
def search_semantic (projectInfo : Option Project) (indexedFiles : List IndexedFileRow)
    (queryEmbedding : List ℚ) (query : String) (fileTypes : Option (List String))
    (limit : ℕ) (minRelevance : ℚ) : Except String (ToolResult SearchData) :=
  match projectInfo with
  | none => .ok (.failure "PROJECT_NOT_FOUND" "Project not found")
  | some _ =>
    if (eligibleCandidates indexedFiles fileTypes).length = 0 then
      .ok (.failure "NO_INDEXED_FILES" "No indexed files found. Run pm_index_files first.")
    else
      match findSimilar queryEmbedding
          ((eligibleCandidates indexedFiles fileTypes).map
            (fun f => Candidate.mk f.path (f.embedding.getD [])))
          limit minRelevance with
      | .error e => .error e
      | .ok similar =>
        .ok (.success
          { query := query
            matchCount := (similar.map (searchEntry indexedFiles fileTypes)).length
            results := similar.map (searchEntry indexedFiles fileTypes) })

/-! ## Pattern suggestion (pattern-recognition tools) -/

/-- A `patterns` row as returned by `db.getPatterns()`. -/
structure Pattern where
  id : ℤ
  projectId : String
  name : String
  problem : String
  solution : String
  problemEmbedding : Option (List ℚ)
  deriving Repr, DecidableEq

/-- One entry of the `suggestions` array built by `suggest_patterns`. -/
structure Suggestion where
  patternId : ℤ
  name : String
  project : String
  confidence : ℚ
  problem : String
  solution : String
  deriving Repr, DecidableEq

/-- The `data` payload of a successful `suggest_patterns`. -/
structure SuggestData where
  message : Option String
  suggestions : List Suggestion
  deriving Repr, DecidableEq

/-- The candidate filter of `suggest_patterns`: keep patterns with a present
embedding; then `if (currentProject && !includeCurrentProject)` — JavaScript
truthiness, so an empty-string `currentProject` disables the exclusion — drop
patterns whose origin project is `currentProject`. -/
def patternCandidates (patterns : List Pattern) (currentProject : Option String)
    (includeCurrentProject : Bool) : List Pattern :=
  let withEmbedding := patterns.filter (fun p => p.problemEmbedding.isSome)
  match currentProject with
  | some cp =>
      if cp ≠ "" ∧ includeCurrentProject = false then
        withEmbedding.filter (fun p => p.projectId ≠ cp)
      else withEmbedding
  | none => withEmbedding

/-- The per-match suggestion builder of `suggest_patterns`: look the match's
pattern id up among the candidates; a missing field falls back to `''`, and
the solution is truncated to 200 characters with an ellipsis (for a failed
lookup, JavaScript `undefined + ''` yields the string "undefined"). -/
def suggestionEntry (patterns : List Pattern) (currentProject : Option String)
    (includeCurrentProject : Bool) (m : SimMatch ℤ) : Suggestion :=
  { patternId := m.id
    name := (((patternCandidates patterns currentProject includeCurrentProject).find?
        (fun p => p.id == m.id)).map (fun p => p.name)).getD ""
    project := (((patternCandidates patterns currentProject includeCurrentProject).find?
        (fun p => p.id == m.id)).map (fun p => p.projectId)).getD ""
    confidence := (jsRound (m.similarity * 100) : ℚ) / 100
    problem := (((patternCandidates patterns currentProject includeCurrentProject).find?
        (fun p => p.id == m.id)).map (fun p => p.problem)).getD ""
    solution := match (patternCandidates patterns currentProject includeCurrentProject).find?
        (fun p => p.id == m.id) with
      | some p => p.solution.take 200 ++ (if 200 < p.solution.length then "..." else "")
      | none => "undefined" }

/-- The `suggest_patterns` handler.  `patterns` is `db.getPatterns()` and
`embedResult` is the outcome of `embed(problem)` (only consulted after the
empty-candidates early return, as in the source).  The whole handler body is
inside a try/catch, so any throw becomes a `SUGGESTION_ERROR` failure. -/
def suggest_patterns (patterns : List Pattern) (embedResult : Except String (List ℚ))
    (currentProject : Option String) (limit : ℕ) (minConfidence : ℚ)
    (includeCurrentProject : Bool) : ToolResult SuggestData :=
  if (patternCandidates patterns currentProject includeCurrentProject).length = 0 then
    .success { message := some "No patterns found in knowledge base", suggestions := [] }
  else
    match embedResult with
    | .error e => .failure "SUGGESTION_ERROR" e
    | .ok problemEmbedding =>
      match findSimilar problemEmbedding
          ((patternCandidates patterns currentProject includeCurrentProject).map
            (fun p => Candidate.mk p.id (p.problemEmbedding.getD [])))
          limit minConfidence with
      | .error e => .failure "SUGGESTION_ERROR" e
      | .ok similar =>
        .success
          { message := none
            suggestions := similar.map
              (suggestionEntry patterns currentProject includeCurrentProject) }

/-! ## Indexing (pm_index_files / pm_index_file)

A file to be indexed is modelled with the outcomes of its fallible external
steps: reading it, embedding its content, `stat`-ing it, and the database
upsert.  `hash` stands for `createHash('md5')...digest('hex')` applied to the
file content, and `existingHash p` is `db.getIndexedFile(project, p)?.content_hash`
(`none` when no row exists).  The two counters returned alongside each result
are the number of `embed` invocations and the number of `db.indexFile` calls. -/

deriving instance DecidableEq for Except

structure FileJob where
  relativePath : String
  readResult : Except String String
  embedResult : Except String (List ℚ)
  statSize : Except String ℕ
  writeResult : Except String Unit
  deriving Repr, DecidableEq

inductive FileOutcome where
  | indexed
  | skipped
  | errored (message : String)
  deriving Repr, DecidableEq

/-- The body of the `for (const filePath of allFiles)` loop of
`pm_index_files`, for one file: read, hash, compare with the stored hash
(skip when unchanged and `reindex` is false), otherwise embed, stat and
upsert; any failure yields an `errored` outcome for this file only. -/
def processFile (hash : String → String) (existingHash : String → Option String)
    (reindex : Bool) (f : FileJob) : FileOutcome × ℕ × ℕ :=
  match f.readResult with
  | .error e => (.errored e, 0, 0)
  | .ok content =>
    let contentHash := hash content
    let unchanged : Bool := match existingHash f.relativePath with
      | some h => h = contentHash
      | none => false
    if unchanged && !reindex then (.skipped, 0, 0)
    else
      match f.embedResult with
      | .error e => (.errored e, 1, 0)
      | .ok _ =>
        match f.statSize with
        | .error e => (.errored e, 1, 0)
        | .ok _ =>
          match f.writeResult with
          | .error e => (.errored e, 1, 1)
          | .ok _ => (.indexed, 1, 1)

/-- The aggregate payload of `pm_index_files`. -/
structure IndexFilesData where
  totalFiles : ℕ
  indexed : ℕ
  skipped : ℕ
  errors : Option (List String)
  deriving Repr, DecidableEq

/-- The whole indexing loop: counts of indexed and skipped files, the
collected error strings in file order, and the total embed and write calls. -/
def runBatch (hash : String → String) (existingHash : String → Option String)
    (reindex : Bool) : List FileJob → ℕ × ℕ × List String × ℕ × ℕ
  | [] => (0, 0, [], 0, 0)
  | f :: rest =>
    let r := processFile hash existingHash reindex f
    let acc := runBatch hash existingHash reindex rest
    match r.1 with
    | .indexed => (acc.1 + 1, acc.2.1, acc.2.2.1, r.2.1 + acc.2.2.2.1, r.2.2 + acc.2.2.2.2)
    | .skipped => (acc.1, acc.2.1 + 1, acc.2.2.1, r.2.1 + acc.2.2.2.1, r.2.2 + acc.2.2.2.2)
    | .errored msg =>
        (acc.1, acc.2.1, (f.relativePath ++ ": " ++ msg) :: acc.2.2.1,
         r.2.1 + acc.2.2.2.1, r.2.2 + acc.2.2.2.2)

/-- The `pm_index_files` handler.  `preloadResult` is the outcome of the
`await preload()` that precedes the loop; it is outside any try/catch, so its
failure is thrown (outer `Except.error`).  Per-file failures are caught inside
the loop and reported in `errors`, truncated to the first 10
(`errors.length > 0 ? errors.slice(0, 10) : undefined`). -/
def pm_index_files (projectInfo : Option Project) (preloadResult : Except String Unit)
    (hash : String → String) (existingHash : String → Option String) (reindex : Bool)
    (allFiles : List FileJob) : Except String (ToolResult IndexFilesData × ℕ × ℕ) :=
  match projectInfo with
  | none => .ok (.failure "PROJECT_NOT_FOUND" "Project not found", 0, 0)
  | some _ =>
    match preloadResult with
    | .error e => .error e
    | .ok _ =>
      let b := runBatch hash existingHash reindex allFiles
      .ok (.success
        { totalFiles := allFiles.length
          indexed := b.1
          skipped := b.2.1
          errors := if b.2.2.1.length > 0 then some (b.2.2.1.take 10) else none },
        b.2.2.2.1, b.2.2.2.2)

/-- The `data` payload of a successful `pm_index_file`. -/
inductive IndexFileData where
  | skippedFile (reason : String)
  | indexedFile (path : String)
  deriving Repr, DecidableEq

/-- The text-file extension allowlist of semantic-search.ts. -/
def TEXT_EXTENSIONS : List String :=
  [".ts", ".tsx", ".js", ".jsx", ".json", ".md", ".txt",
   ".html", ".css", ".scss", ".less", ".yaml", ".yml",
   ".xml", ".sql", ".sh", ".bash", ".ps1", ".py", ".rb",
   ".java", ".kt", ".go", ".rs", ".c", ".cpp", ".h",
   ".cs", ".fs", ".vue", ".svelte", ".astro", ".toml"]

/-- The `pm_index_file` handler.  `fileExists` is `existsSync(filePath)` and
`ext` is `extname(filePath)`.  Unlike the batch handler, `preload()` here runs
inside the try block and only after the unchanged-hash early return. -/
def pm_index_file (projectInfo : Option Project) (fileExists : Bool) (ext : String)
    (preloadResult : Except String Unit) (hash : String → String)
    (existingHash : String → Option String) (force : Bool) (f : FileJob) :
    ToolResult IndexFileData × ℕ × ℕ :=
  match projectInfo with
  | none => (.failure "PROJECT_NOT_FOUND" "Project not found", 0, 0)
  | some _ =>
    if fileExists = false then (.failure "FILE_NOT_FOUND" "File not found", 0, 0)
    else if TEXT_EXTENSIONS.contains ext = false then
      (.success (.skippedFile "Not a text file"), 0, 0)
    else
      match f.readResult with
      | .error e => (.failure "INDEX_FAILED" e, 0, 0)
      | .ok content =>
        let contentHash := hash content
        let unchanged : Bool := match existingHash f.relativePath with
          | some h => h = contentHash
          | none => false
        if unchanged && !force then
          (.success (.skippedFile "File unchanged"), 0, 0)
        else
          match preloadResult with
          | .error e => (.failure "INDEX_FAILED" e, 0, 0)
          | .ok _ =>
            match f.embedResult with
            | .error e => (.failure "INDEX_FAILED" e, 1, 0)
            | .ok _ =>
              match f.statSize with
              | .error e => (.failure "INDEX_FAILED" e, 1, 0)
              | .ok _ =>
                match f.writeResult with
                | .error e => (.failure "INDEX_FAILED" e, 1, 1)
                | .ok _ => (.success (.indexedFile f.relativePath), 1, 1)

/-! ## Theorems: vector codec -/

theorem serializeEmbedding_cons (w : ℕ) (v : List ℕ) :
    serializeEmbedding (w :: v) = word32Bytes w ++ serializeEmbedding v := by
  simp [serializeEmbedding]

/-- C4: `deserializeEmbedding(serializeEmbedding(v))` restores every float32
element bit-for-bit (elements are 32-bit patterns, so each is `< 2^32`);
equality of lists gives both the length and the elementwise claim. -/
theorem serialize_deserialize_roundtrip (v : List ℕ) (hv : ∀ w ∈ v, w < 4294967296) :
    deserializeEmbedding (serializeEmbedding v) = v := by
  induction v with
  | nil => rfl
  | cons w v ih =>
    have hw : w < 4294967296 := hv w (List.mem_cons_self w v)
    have hrest : ∀ x ∈ v, x < 4294967296 := fun x hx => hv x (List.mem_cons_of_mem _ hx)
    rw [serializeEmbedding_cons]
    show deserializeEmbedding (w % 256 :: w / 256 % 256 :: w / 65536 % 256 ::
      w / 16777216 % 256 :: serializeEmbedding v) = w :: v
    rw [deserializeEmbedding, word32Bytes_recombine w hw, ih hrest]

/-- Witness for `serialize_deserialize_roundtrip` at a concrete vector
(the bit patterns of 0.0f, -1.0f and 1.0f). -/
theorem serialize_deserialize_roundtrip_witness :
    (∀ w ∈ [0, 3212836864, 1065353216], w < 4294967296) ∧
      deserializeEmbedding (serializeEmbedding [0, 3212836864, 1065353216]) =
        [0, 3212836864, 1065353216] :=
  ⟨by decide, serialize_deserialize_roundtrip _ (by decide)⟩

/-! ## Helper lemmas about ranking -/

theorem mem_insertDesc {ι : Type} (m x : SimMatch ι) (l : List (SimMatch ι)) :
    x ∈ insertDesc m l ↔ x = m ∨ x ∈ l := by
  induction l with
  | nil => simp [insertDesc]
  | cons y ys ih =>
    by_cases h : y.similarity < m.similarity
    · simp [insertDesc, h]
    · simp only [insertDesc, if_neg h, List.mem_cons, ih]
      tauto

theorem mem_sortDesc {ι : Type} (x : SimMatch ι) (l : List (SimMatch ι)) :
    x ∈ sortDesc l ↔ x ∈ l := by
  induction l with
  | nil => simp [sortDesc]
  | cons y ys ih => simp [sortDesc, mem_insertDesc, ih]

/-- Characterization of a successful `findSimilar`: the output is the sorted,
thresholded, truncated candidate scoring. -/
theorem findSimilar_ok {ι : Type} (q : List ℚ) (c : List (Candidate ι)) (limit : ℕ)
    (minSim : ℚ) (out : List (SimMatch ι))
    (h : findSimilar q c limit minSim = .ok out) :
    ∃ scored, scoreAll q c = .ok scored ∧
      out = (sortDesc (scored.filter (fun r => minSim ≤ r.similarity))).take limit := by
  unfold findSimilar at h
  rcases hm : scoreAll q c with e | scored <;> rw [hm] at h <;> dsimp only at h
  · cases h
  · exact ⟨scored, rfl, (Except.ok.inj h).symm⟩

theorem findSimilar_ok_length {ι : Type} (q : List ℚ) (c : List (Candidate ι)) (limit : ℕ)
    (minSim : ℚ) (out : List (SimMatch ι))
    (h : findSimilar q c limit minSim = .ok out) : out.length ≤ limit := by
  obtain ⟨scored, -, hout⟩ := findSimilar_ok q c limit minSim out h
  rw [hout]
  exact (List.length_take _ _).le.trans (min_le_left _ _)

theorem findSimilar_ok_minSim {ι : Type} (q : List ℚ) (c : List (Candidate ι)) (limit : ℕ)
    (minSim : ℚ) (out : List (SimMatch ι))
    (h : findSimilar q c limit minSim = .ok out) :
    ∀ m ∈ out, minSim ≤ m.similarity := by
  obtain ⟨scored, -, hout⟩ := findSimilar_ok q c limit minSim out h
  intro m hm
  rw [hout] at hm
  have hm' := (mem_sortDesc m _).mp (List.mem_of_mem_take hm)
  have := List.of_mem_filter hm'
  simpa using this

/-! ## Theorems: search_semantic (C1, C5) -/

/-- Rounding to two decimals loses at most half a hundredth. -/
theorem jsRound_hundredths_floor (s minRel : ℚ) (h : minRel ≤ s) :
    minRel - 1/200 < (jsRound (s * 100) : ℚ) / 100 := by
  have h1 : s * 100 + 1/2 - 1 < ((⌊s * 100 + 1/2⌋ : ℤ) : ℚ) := Int.sub_one_lt_floor _
  have h2 : (jsRound (s * 100) : ℚ) = ((⌊s * 100 + 1/2⌋ : ℤ) : ℚ) := by
    simp [jsRound]
  rw [h2]
  linarith

/-- C1 (amended): every successful `search_semantic` returns at most `limit`
results, and each returned result stems from an unrounded similarity
`s ≥ minRelevance`; its reported `relevance` field is that similarity rounded
to two decimals, hence strictly greater than `minRelevance - 1/200` (but can
round to below `minRelevance`, see the counterexample). -/
theorem search_semantic_limit_and_relevance_floor
    (pinfo : Option Project) (files : List IndexedFileRow) (qe : List ℚ) (q : String)
    (ft : Option (List String)) (limit : ℕ) (minRel : ℚ) (d : SearchData)
    (h : search_semantic pinfo files qe q ft limit minRel = .ok (.success d)) :
    d.results.length ≤ limit ∧
    ∀ r ∈ d.results, ∃ s : ℚ,
      minRel ≤ s ∧ r.relevance = (jsRound (s * 100) : ℚ) / 100 ∧
      minRel - 1/200 < r.relevance := by
  unfold search_semantic at h
  cases pinfo with
  | none => simp at h
  | some pi =>
    by_cases hc : (eligibleCandidates files ft).length = 0
    · rw [if_pos hc] at h
      simp at h
    · rw [if_neg hc] at h
      rcases hf : findSimilar qe ((eligibleCandidates files ft).map
          (fun f => Candidate.mk f.path (f.embedding.getD []))) limit minRel with e | similar
      · rw [hf] at h
        cases h
      · rw [hf] at h
        simp only [Except.ok.injEq, ToolResult.success.injEq] at h
        have hd : d.results = similar.map (searchEntry files ft) := by
          rw [← h]
        constructor
        · rw [hd, List.length_map]
          exact findSimilar_ok_length _ _ _ _ _ hf
        · intro r hr
          rw [hd] at hr
          obtain ⟨m, hm, hmr⟩ := List.mem_map.mp hr
          have hsim : minRel ≤ m.similarity := findSimilar_ok_minSim _ _ _ _ _ hf m hm
          refine ⟨m.similarity, hsim, ?_, ?_⟩
          · rw [← hmr]; rfl
          · rw [← hmr]
            exact jsRound_hundredths_floor _ _ hsim

/-- Witness for `search_semantic_limit_and_relevance_floor` at a concrete
one-file index and query. -/
theorem search_semantic_limit_and_relevance_floor_witness :
    search_semantic (some ⟨"p", "/p"⟩) [⟨"a.ts", some [1], some "hello"⟩]
        [1] "q" none 10 0 =
      .ok (.success { query := "q", matchCount := 1
                      results := [⟨"a.ts", 1, "hello"⟩] }) ∧
    ([⟨"a.ts", (1 : ℚ), "hello"⟩] : List SearchResultEntry).length ≤ 10 ∧
    ∀ r ∈ ([⟨"a.ts", (1 : ℚ), "hello"⟩] : List SearchResultEntry), ∃ s : ℚ,
      (0 : ℚ) ≤ s ∧ r.relevance = (jsRound (s * 100) : ℚ) / 100 ∧
      (0 : ℚ) - 1/200 < r.relevance := by
  have hdot : dotProduct [1] [1] = 1 := by norm_num [dotProduct]
  have hround : jsRound (100 : ℚ) = 100 := by norm_num [jsRound]
  have heval : search_semantic (some ⟨"p", "/p"⟩) [⟨"a.ts", some [1], some "hello"⟩]
      [1] "q" none 10 0 =
      .ok (.success { query := "q", matchCount := 1
                      results := [⟨"a.ts", 1, "hello"⟩] }) := by
    norm_num [search_semantic, eligibleCandidates, findSimilar,
      Embeddings.cosineSimilarity, hdot, hround, scoreAll, sortDesc, insertDesc,
      List.filter_cons, searchEntry]
    rfl
  exact ⟨heval, search_semantic_limit_and_relevance_floor
    (some ⟨"p", "/p"⟩) [⟨"a.ts", some [1], some "hello"⟩] [1] "q" none 10 0 _ heval⟩

/-- C1 counterexample: with stored vector `[39/128, 121/128]`, query embedding
`[1, 0]` and `minRelevance = 39/128`, the single match has raw similarity
exactly `39/128 = 0.3046875` (so it passes the filter), but the reported
`relevance` is rounded to `0.30 < minRelevance`.  All numbers involved are
exactly representable in IEEE float32/float64, so the same run happens in the
TypeScript original. -/
theorem search_semantic_reported_relevance_below_floor :
    search_semantic (some ⟨"p", "/p"⟩) [⟨"a.ts", some [39/128, 121/128], some "x"⟩]
        [1, 0] "q" none 10 (39/128) =
      .ok (.success { query := "q", matchCount := 1
                      results := [⟨"a.ts", 3/10, "x"⟩] }) ∧
    (3/10 : ℚ) < 39/128 := by
  constructor
  · have hdot : dotProduct [1, 0] [(39 : ℚ)/128, 121/128] = 39/128 := by
      norm_num [dotProduct]
    have hround : jsRound ((975 : ℚ)/32) = 30 := by norm_num [jsRound]
    norm_num [search_semantic, eligibleCandidates, findSimilar,
      Embeddings.cosineSimilarity, hdot, hround, scoreAll, sortDesc, insertDesc,
      List.filter_cons, searchEntry]
    rfl
  · norm_num

/-- Shared helper: with a registered project and no eligible candidates,
`search_semantic` takes the `NO_INDEXED_FILES` early return. -/
theorem search_semantic_of_no_candidates (pi : Project) (files : List IndexedFileRow)
    (qe : List ℚ) (q : String) (ft : Option (List String)) (limit : ℕ) (minRel : ℚ)
    (h : eligibleCandidates files ft = []) :
    search_semantic (some pi) files qe q ft limit minRel =
      .ok (.failure "NO_INDEXED_FILES" "No indexed files found. Run pm_index_files first.") := by
  simp [search_semantic, h]

/-- C5: for an existing project whose index has no row with a present
embedding surviving the optional file-type filter, `search_semantic` returns
the `NO_INDEXED_FILES` failure outcome, not an empty success. -/
theorem search_semantic_no_indexed_content (pi : Project) (files : List IndexedFileRow)
    (qe : List ℚ) (q : String) (ft : Option (List String)) (limit : ℕ) (minRel : ℚ)
    (h : eligibleCandidates files ft = []) :
    search_semantic (some pi) files qe q ft limit minRel =
      .ok (.failure "NO_INDEXED_FILES" "No indexed files found. Run pm_index_files first.") :=
  search_semantic_of_no_candidates pi files qe q ft limit minRel h

/-- Witness for `search_semantic_no_indexed_content`: an index holding one
row whose embedding column is NULL. -/
theorem search_semantic_no_indexed_content_witness :
    eligibleCandidates [⟨"a.ts", none, none⟩] none = [] ∧
    search_semantic (some ⟨"p", "/p"⟩) [⟨"a.ts", none, none⟩] [1] "q" none 10 (3/10) =
      .ok (.failure "NO_INDEXED_FILES" "No indexed files found. Run pm_index_files first.") :=
  ⟨rfl, search_semantic_no_indexed_content ⟨"p", "/p"⟩ [⟨"a.ts", none, none⟩]
    [1] "q" none 10 (3/10) rfl⟩

/-! ## Theorems: suggest_patterns (C6, C10) -/

/-- Every candidate surviving the exclusion filter has a different origin
project than the (truthy) current project. -/
theorem patternCandidates_projectId_ne (patterns : List Pattern) (P : String)
    (hP : P ≠ "") (p : Pattern)
    (hp : p ∈ patternCandidates patterns (some P) false) : p.projectId ≠ P := by
  have hp' : p ∈ List.filter (fun p => decide (p.projectId ≠ P))
      (List.filter (fun p => p.problemEmbedding.isSome) patterns) := by
    simpa [patternCandidates, hP] using hp
  have := List.of_mem_filter hp'
  simpa using this

/-- C6 (amended): `suggest_patterns` called with a non-empty current-project
id `P` and `includeCurrentProject = false` never returns a suggestion whose
origin project is `P`.  (For `P = ""` the JavaScript truthiness guard
`if (currentProject && !includeCurrentProject)` skips the exclusion filter
altogether — see the counterexample.) -/
theorem suggest_patterns_never_suggests_current_project
    (patterns : List Pattern) (er : Except String (List ℚ)) (P : String)
    (limit : ℕ) (minConf : ℚ) (d : SuggestData) (hP : P ≠ "")
    (h : suggest_patterns patterns er (some P) limit minConf false = .success d) :
    ∀ s ∈ d.suggestions, s.project ≠ P := by
  unfold suggest_patterns at h
  by_cases hc : (patternCandidates patterns (some P) false).length = 0
  · rw [if_pos hc] at h
    simp only [ToolResult.success.injEq] at h
    rw [← h]
    intro s hs
    simp at hs
  · rw [if_neg hc] at h
    cases er with
    | error e => cases h
    | ok pe =>
      dsimp only at h
      rcases hf : findSimilar pe ((patternCandidates patterns (some P) false).map
          (fun p => Candidate.mk p.id (p.problemEmbedding.getD []))) limit minConf
        with e | similar
      · rw [hf] at h
        cases h
      · rw [hf] at h
        simp only [ToolResult.success.injEq] at h
        intro s hs
        rw [← h] at hs
        obtain ⟨m, -, hms⟩ := List.mem_map.mp hs
        rw [← hms]
        show (suggestionEntry patterns (some P) false m).project ≠ P
        unfold suggestionEntry
        rcases hfind : (patternCandidates patterns (some P) false).find?
            (fun p => p.id == m.id) with - | p
        · simpa [hfind] using Ne.symm hP
        · have hmem := List.mem_of_find?_eq_some hfind
          simpa [hfind] using patternCandidates_projectId_ne patterns P hP p hmem

/-- Witness for `suggest_patterns_never_suggests_current_project`: one stored
pattern from project "other", current project "mine". -/
theorem suggest_patterns_never_suggests_current_project_witness :
    ("mine" : String) ≠ "" ∧
    ∀ s ∈ (SuggestData.suggestions ⟨none, [⟨1, "n", "other", 1, "prob", "sol"⟩]⟩),
      s.project ≠ "mine" := by
  have hdot : dotProduct [1] [1] = 1 := by norm_num [dotProduct]
  have hround : jsRound (100 : ℚ) = 100 := by norm_num [jsRound]
  have heval : suggest_patterns [⟨1, "other", "n", "prob", "sol", some [1]⟩] (.ok [1])
      (some "mine") 5 (1/2) false =
      .success ⟨none, [⟨1, "n", "other", 1, "prob", "sol"⟩]⟩ := by
    norm_num [suggest_patterns, patternCandidates, suggestionEntry, findSimilar,
      Embeddings.cosineSimilarity, hdot, hround, scoreAll, sortDesc, insertDesc,
      List.filter_cons]
    rfl
  exact ⟨by decide, suggest_patterns_never_suggests_current_project
    [⟨1, "other", "n", "prob", "sol", some [1]⟩] (.ok [1]) "mine" 5 (1/2) _
    (by decide) heval⟩

/-- C6 counterexample: with current project `""` (a registerable project id,
falsy in JavaScript) the guard `if (currentProject && !includeCurrentProject)`
skips the exclusion filter, and a pattern whose origin project is also `""`
is returned: the suggestion's `project` field equals the current project. -/
theorem suggest_patterns_empty_current_project_not_excluded :
    suggest_patterns [⟨1, "", "n", "prob", "sol", some [1]⟩] (.ok [1])
        (some "") 5 (1/2) false =
      .success ⟨none, [⟨1, "n", "", 1, "prob", "sol"⟩]⟩ ∧
    Suggestion.project ⟨1, "n", "", 1, "prob", "sol"⟩ = "" := by
  constructor
  · have hdot : dotProduct [1] [1] = 1 := by norm_num [dotProduct]
    have hround : jsRound (100 : ℚ) = 100 := by norm_num [jsRound]
    norm_num [suggest_patterns, patternCandidates, suggestionEntry, findSimilar,
      Embeddings.cosineSimilarity, hdot, hround, scoreAll, sortDesc, insertDesc,
      List.filter_cons]
    rfl
  · rfl

/-- C10: when the candidate set of `suggest_patterns` is empty (no stored
pattern has an embedding, or the current-project exclusion removed them all),
the handler returns a success carrying an empty `suggestions` list — unlike
`search_semantic`, which returns a failure outcome in the analogous
no-candidates state. -/
theorem suggest_patterns_empty_success_vs_search_error :
    (∀ (patterns : List Pattern) (er : Except String (List ℚ)) (cp : Option String)
        (limit : ℕ) (minConf : ℚ) (inc : Bool),
      patternCandidates patterns cp inc = [] →
      suggest_patterns patterns er cp limit minConf inc =
        .success ⟨some "No patterns found in knowledge base", []⟩) ∧
    (∀ (pi : Project) (files : List IndexedFileRow) (qe : List ℚ) (q : String)
        (ft : Option (List String)) (limit : ℕ) (minRel : ℚ),
      eligibleCandidates files ft = [] →
      search_semantic (some pi) files qe q ft limit minRel =
        .ok (.failure "NO_INDEXED_FILES" "No indexed files found. Run pm_index_files first.")) := by
  constructor
  · intro patterns er cp limit minConf inc h
    simp [suggest_patterns, h]
  · intro pi files qe q ft limit minRel h
    exact search_semantic_of_no_candidates pi files qe q ft limit minRel h

/-- Witness for `suggest_patterns_empty_success_vs_search_error`: one stored
pattern with a NULL embedding (so no candidate), and an index row with a NULL
embedding on the search side. -/
theorem suggest_patterns_empty_success_vs_search_error_witness :
    suggest_patterns [⟨1, "p", "n", "prob", "sol", none⟩] (.ok [1])
        (some "p") 5 (1/2) false =
      .success ⟨some "No patterns found in knowledge base", []⟩ ∧
    search_semantic (some ⟨"p", "/p"⟩) [⟨"a.ts", none, none⟩] [1] "q" none 10 (3/10) =
      .ok (.failure "NO_INDEXED_FILES" "No indexed files found. Run pm_index_files first.") :=
  ⟨suggest_patterns_empty_success_vs_search_error.1
      [⟨1, "p", "n", "prob", "sol", none⟩] (.ok [1]) (some "p") 5 (1/2) false rfl,
    suggest_patterns_empty_success_vs_search_error.2
      ⟨"p", "/p"⟩ [⟨"a.ts", none, none⟩] [1] "q" none 10 (3/10) rfl⟩

/-! ## Theorems: indexing (C2, C7) -/

/-- Shared helper: an unchanged file (read succeeds, stored hash equals the
hash of the content) is skipped with no embed and no write when the force
flag is off. -/
theorem processFile_skip (hash : String → String) (existingHash : String → Option String)
    (f : FileJob) (content h : String) (hread : f.readResult = .ok content)
    (hex : existingHash f.relativePath = some h) (hh : h = hash content) :
    processFile hash existingHash false f = (.skipped, 0, 0) := by
  simp [processFile, hread, hex, hh]

/-- Shared helper: a batch in which every file is unchanged indexes nothing,
skips everything, collects no errors, and performs no embeds or writes. -/
theorem runBatch_all_unchanged (hash : String → String)
    (existingHash : String → Option String) (jobs : List FileJob)
    (hall : ∀ f ∈ jobs, ∃ c, f.readResult = .ok c ∧
      existingHash f.relativePath = some (hash c)) :
    runBatch hash existingHash false jobs = (0, jobs.length, [], 0, 0) := by
  induction jobs with
  | nil => rfl
  | cons f rest ih =>
    obtain ⟨c, hr, he⟩ := hall f (List.mem_cons_self f rest)
    have hskip : processFile hash existingHash false f = (.skipped, 0, 0) :=
      processFile_skip hash existingHash f c (hash c) hr he rfl
    have hrest := ih (fun g hg => hall g (List.mem_cons_of_mem f hg))
    simp [runBatch, hskip, hrest]

/-- C2: a file whose content hash equals the stored hash is, with the force
flag off, skipped with zero embedding invocations and zero store writes —
stated for the batch loop body (`processFile`), for a whole unchanged batch
through `pm_index_files`, and for the single-file entry point
`pm_index_file`. -/
theorem unchanged_hash_skips_without_embedding :
    (∀ (hash : String → String) (existingHash : String → Option String)
        (f : FileJob) (content h : String),
      f.readResult = .ok content →
      existingHash f.relativePath = some h →
      h = hash content →
      processFile hash existingHash false f = (.skipped, 0, 0)) ∧
    (∀ (pinfo : Project) (hash : String → String)
        (existingHash : String → Option String) (jobs : List FileJob),
      (∀ f ∈ jobs, ∃ c, f.readResult = .ok c ∧
        existingHash f.relativePath = some (hash c)) →
      pm_index_files (some pinfo) (.ok ()) hash existingHash false jobs =
        .ok (.success ⟨jobs.length, 0, jobs.length, none⟩, 0, 0)) ∧
    (∀ (pinfo : Project) (ext : String) (preloadResult : Except String Unit)
        (hash : String → String) (existingHash : String → Option String)
        (f : FileJob) (content h : String),
      TEXT_EXTENSIONS.contains ext = true →
      f.readResult = .ok content →
      existingHash f.relativePath = some h →
      h = hash content →
      pm_index_file (some pinfo) true ext preloadResult hash existingHash false f =
        (.success (.skippedFile "File unchanged"), 0, 0)) := by
  refine ⟨processFile_skip, ?_, ?_⟩
  · intro pinfo hash existingHash jobs hall
    simp [pm_index_files, runBatch_all_unchanged hash existingHash jobs hall]
  · intro pinfo ext preloadResult hash existingHash f content h hext hread hex hh
    have hmem : ext ∈ TEXT_EXTENSIONS := by simpa using hext
    simp [pm_index_file, hmem, hread, hex, hh]

/-- Witness for `unchanged_hash_skips_without_embedding` at a concrete
unchanged file, for all three conjuncts. -/
theorem unchanged_hash_skips_without_embedding_witness :
    processFile (fun _ => "h0") (fun _ => some "h0") false
        ⟨"a.ts", .ok "text", .ok [1], .ok 4, .ok ()⟩ = (.skipped, 0, 0) ∧
    pm_index_files (some ⟨"p", "/p"⟩) (.ok ()) (fun _ => "h0") (fun _ => some "h0") false
        [⟨"a.ts", .ok "text", .ok [1], .ok 4, .ok ()⟩] =
      .ok (.success ⟨1, 0, 1, none⟩, 0, 0) ∧
    pm_index_file (some ⟨"p", "/p"⟩) true ".ts" (.ok ()) (fun _ => "h0")
        (fun _ => some "h0") false ⟨"a.ts", .ok "text", .ok [1], .ok 4, .ok ()⟩ =
      (.success (.skippedFile "File unchanged"), 0, 0) :=
  ⟨unchanged_hash_skips_without_embedding.1 (fun _ => "h0") (fun _ => some "h0")
      ⟨"a.ts", .ok "text", .ok [1], .ok 4, .ok ()⟩ "text" "h0" rfl rfl rfl,
    unchanged_hash_skips_without_embedding.2.1 ⟨"p", "/p"⟩ (fun _ => "h0")
      (fun _ => some "h0") [⟨"a.ts", .ok "text", .ok [1], .ok 4, .ok ()⟩]
      (fun f hf => ⟨"text", by
        simp only [List.mem_singleton] at hf
        rw [hf], by
        simp only [List.mem_singleton] at hf
        rw [hf]⟩),
    unchanged_hash_skips_without_embedding.2.2 ⟨"p", "/p"⟩ ".ts" (.ok ())
      (fun _ => "h0") (fun _ => some "h0")
      ⟨"a.ts", .ok "text", .ok [1], .ok 4, .ok ()⟩ "text" "h0" (by decide) rfl rfl rfl⟩

/-- Whether a file's loop outcome was a caught per-file error. -/
def erroredOutcome : FileOutcome → Bool
  | .errored _ => true
  | _ => false

/-- Length of the optional error list of an aggregate result. -/
def errorsLength : Option (List String) → ℕ
  | none => 0
  | some l => l.length

/-- Shared helper: the batch loop accounts for every file exactly once, and
its error list has one entry per errored file. -/
theorem runBatch_counts (hash : String → String) (existingHash : String → Option String)
    (reindex : Bool) (jobs : List FileJob) :
    (runBatch hash existingHash reindex jobs).1 +
      (runBatch hash existingHash reindex jobs).2.1 +
      (runBatch hash existingHash reindex jobs).2.2.1.length = jobs.length ∧
    (runBatch hash existingHash reindex jobs).2.2.1.length =
      jobs.countP (fun f => erroredOutcome (processFile hash existingHash reindex f).1) := by
  induction jobs with
  | nil => simp [runBatch]
  | cons f rest ih =>
    obtain ⟨ih1, ih2⟩ := ih
    rcases hp : (processFile hash existingHash reindex f).1 with - | - | msg
    · have hpe : erroredOutcome FileOutcome.indexed = false := rfl
      simp [runBatch, hp, List.countP_cons, hpe]
      omega
    · have hpe : erroredOutcome FileOutcome.skipped = false := rfl
      simp [runBatch, hp, List.countP_cons, hpe]
      omega
    · have hpe : erroredOutcome (FileOutcome.errored msg) = true := rfl
      simp [runBatch, hp, List.countP_cons, hpe]
      omega

/-- C7: with the project registered and the model preload successful, the
batch indexer completes with a success for every possible combination of
per-file read/embed/stat/write failures: no per-file failure escapes, every
file is counted as indexed, skipped or errored, and the reported error list
holds at most 10 entries. -/
theorem pm_index_files_never_aborts (pinfo : Project) (hash : String → String)
    (existingHash : String → Option String) (reindex : Bool) (jobs : List FileJob) :
    ∃ (d : IndexFilesData) (embeds writes : ℕ),
      pm_index_files (some pinfo) (.ok ()) hash existingHash reindex jobs =
        .ok (.success d, embeds, writes) ∧
      d.totalFiles = jobs.length ∧
      d.indexed + d.skipped +
        jobs.countP (fun f => erroredOutcome (processFile hash existingHash reindex f).1) =
        jobs.length ∧
      errorsLength d.errors ≤ 10 := by
  obtain ⟨hsum, herr⟩ := runBatch_counts hash existingHash reindex jobs
  refine ⟨⟨jobs.length, (runBatch hash existingHash reindex jobs).1,
    (runBatch hash existingHash reindex jobs).2.1,
    if (runBatch hash existingHash reindex jobs).2.2.1.length > 0 then
      some ((runBatch hash existingHash reindex jobs).2.2.1.take 10) else none⟩,
    (runBatch hash existingHash reindex jobs).2.2.2.1,
    (runBatch hash existingHash reindex jobs).2.2.2.2, ?_, rfl, ?_, ?_⟩
  · simp [pm_index_files]
  · rw [← herr]
    exact hsum
  · by_cases hgt : (runBatch hash existingHash reindex jobs).2.2.1.length > 0
    · simp only [if_pos hgt, errorsLength]
      exact (List.length_take _ _).le.trans (min_le_left _ _)
    · simp [if_neg hgt, errorsLength]

/-! ## Theorems: dimension mismatch (C8) -/

/-- Shared helper: one candidate of mismatched dimension makes the scoring
pass of `findSimilar` throw. -/
theorem scoreAll_error {ι : Type} (q : List ℚ) (c : List (Candidate ι))
    (hex : ∃ cand ∈ c, q.length ≠ cand.embedding.length) :
    ∃ msg, scoreAll q c = .error msg := by
  induction c with
  | nil => simp at hex
  | cons x xs ih =>
    by_cases hx : q.length = x.embedding.length
    · obtain ⟨cand, hm, hne⟩ := hex
      rcases List.mem_cons.mp hm with hcx | hcxs
      · rw [hcx] at hne
        exact absurd hx hne
      · obtain ⟨msg, hmap⟩ := ih ⟨cand, hcxs, hne⟩
        have hcos : Embeddings.cosineSimilarity q x.embedding =
            .ok (dotProduct q x.embedding) := by
          simp [Embeddings.cosineSimilarity, hx]
        exact ⟨msg, by simp [scoreAll, hcos, hmap]⟩
    · have hcos : Embeddings.cosineSimilarity q x.embedding =
          .error ("Embedding dimensions do not match: " ++ toString q.length ++
            " vs " ++ toString x.embedding.length) := by
        simp [Embeddings.cosineSimilarity, hx]
      exact ⟨"Embedding dimensions do not match: " ++ toString q.length ++
        " vs " ++ toString x.embedding.length, by simp [scoreAll, hcos]⟩

/-- C8: a length mismatch is never silently scored — the embeddings-side
`cosineSimilarity` (the one `findSimilar` uses) throws a dimension-mismatch
error, which propagates out of `findSimilar`; the database-side helper (used
only by the never-invoked `searchFilesByEmbedding`) returns the defined
sentinel `0`. -/
theorem cosineSimilarity_mismatch_signalled :
    (∀ a b : List ℚ, a.length ≠ b.length →
      Embeddings.cosineSimilarity a b =
        .error ("Embedding dimensions do not match: " ++ toString a.length ++
          " vs " ++ toString b.length)) ∧
    (∀ a b : List ℝ, a.length ≠ b.length → Database.cosineSimilarity a b = 0) ∧
    (∀ (ι : Type) (q : List ℚ) (c : List (Candidate ι)) (limit : ℕ) (minSim : ℚ),
      (∃ cand ∈ c, q.length ≠ cand.embedding.length) →
      ∃ msg, findSimilar q c limit minSim = .error msg) := by
  refine ⟨?_, ?_, ?_⟩
  · intro a b hab
    simp [Embeddings.cosineSimilarity, hab]
  · intro a b hab
    simp [Database.cosineSimilarity, hab]
  · intro ι q c limit minSim hex
    obtain ⟨msg, hmap⟩ := scoreAll_error q c hex
    exact ⟨msg, by simp [findSimilar, hmap]⟩

/-- Witness for `cosineSimilarity_mismatch_signalled` on concrete mismatched
vectors. -/
theorem cosineSimilarity_mismatch_signalled_witness :
    Embeddings.cosineSimilarity [1] [] =
      .error ("Embedding dimensions do not match: " ++ toString (1 : ℕ) ++
        " vs " ++ toString (0 : ℕ)) ∧
    Database.cosineSimilarity [(1 : ℝ)] [] = 0 ∧
    ∃ msg, findSimilar [(1 : ℚ)] [Candidate.mk "a.ts" []] 10 (3/10) = .error msg :=
  ⟨cosineSimilarity_mismatch_signalled.1 [1] [] (by decide),
    cosineSimilarity_mismatch_signalled.2.1 [(1 : ℝ)] [] (by decide),
    cosineSimilarity_mismatch_signalled.2.2 String [(1 : ℚ)]
      [Candidate.mk "a.ts" []] 10 (3/10) ⟨Candidate.mk "a.ts" [], by simp, by decide⟩⟩

/-! ## Theorems: cosine similarity symmetry and range (C3) -/

theorem sumSq_nonneg {R : Type} [LinearOrderedCommRing R] (a : List R) :
    0 ≤ (a.map (fun x => x * x)).sum := by
  induction a with
  | nil => simp
  | cons x xs ih =>
    simp only [List.map_cons, List.sum_cons]
    have := mul_self_nonneg x
    linarith

/-- Cauchy–Schwarz for the list dot product, squared form. -/
theorem list_cauchy_schwarz {R : Type} [LinearOrderedCommRing R] (a b : List R) :
    ((List.zipWith (fun x y => x * y) a b).sum) ^ 2 ≤
      (a.map (fun x => x * x)).sum * (b.map (fun x => x * x)).sum := by
  induction a generalizing b with
  | nil => simp
  | cons x xs ih =>
    cases b with
    | nil => simp
    | cons y ys =>
      have h := ih ys
      have hA := sumSq_nonneg xs
      have hB := sumSq_nonneg ys
      simp only [List.zipWith_cons_cons, List.sum_cons, List.map_cons]
      rcases eq_or_lt_of_le hB with hB0 | hBpos
      · rw [← hB0] at h
        have hS2 : ((List.zipWith (fun x y => x * y) xs ys).sum) ^ 2 = 0 :=
          le_antisymm (by simpa using h) (sq_nonneg _)
        have hS0 : (List.zipWith (fun x y => x * y) xs ys).sum = 0 :=
          (pow_eq_zero_iff (by norm_num : (2 : ℕ) ≠ 0)).mp hS2
        rw [hS0, ← hB0]
        nlinarith [mul_nonneg hA (mul_self_nonneg y), mul_self_nonneg (x * y)]
      · nlinarith [sq_nonneg (x * (ys.map (fun x => x * x)).sum -
            y * (List.zipWith (fun x y => x * y) xs ys).sum),
          mul_nonneg (mul_self_nonneg y) (sub_nonneg.mpr h),
          mul_nonneg hBpos.le (sub_nonneg.mpr h)]

theorem zipWith_mul_comm {R : Type} [LinearOrderedCommRing R] (a b : List R) :
    List.zipWith (fun x y => x * y) a b = List.zipWith (fun x y => x * y) b a :=
  List.zipWith_comm_of_comm _ mul_comm a b

/-- Shared helper: the database-side cosine is symmetric. -/
theorem dbCosineSimilarity_symm (a b : List ℝ) :
    Database.cosineSimilarity a b = Database.cosineSimilarity b a := by
  simp only [Database.cosineSimilarity]
  rw [zipWith_mul_comm b a,
    mul_comm (Real.sqrt ((b.map (fun x => x * x)).sum))
      (Real.sqrt ((a.map (fun x => x * x)).sum))]
  simp only [ne_comm]

/-- Shared helper: the database-side cosine always lies in `[-1, 1]`. -/
theorem dbCosineSimilarity_bounds (a b : List ℝ) :
    -1 ≤ Database.cosineSimilarity a b ∧ Database.cosineSimilarity a b ≤ 1 := by
  unfold Database.cosineSimilarity
  by_cases hl : a.length = b.length
  · rw [if_neg (fun h => h hl)]
    dsimp only
    by_cases hd : Real.sqrt ((a.map (fun x => x * x)).sum) *
        Real.sqrt ((b.map (fun x => x * x)).sum) = 0
    · rw [if_pos hd]
      norm_num
    · rw [if_neg hd]
      have hA0 : 0 ≤ (a.map (fun x => x * x)).sum := sumSq_nonneg a
      have hB0 : 0 ≤ (b.map (fun x => x * x)).sum := sumSq_nonneg b
      have hd0 : 0 < Real.sqrt ((a.map (fun x => x * x)).sum) *
          Real.sqrt ((b.map (fun x => x * x)).sum) :=
        lt_of_le_of_ne (mul_nonneg (Real.sqrt_nonneg _) (Real.sqrt_nonneg _)) (Ne.symm hd)
      have hsd : ((List.zipWith (fun x y => x * y) a b).sum) ^ 2 ≤
          (Real.sqrt ((a.map (fun x => x * x)).sum) *
            Real.sqrt ((b.map (fun x => x * x)).sum)) ^ 2 := by
        rw [mul_pow, Real.sq_sqrt hA0, Real.sq_sqrt hB0]
        exact list_cauchy_schwarz a b
      constructor
      · rw [le_div_iff hd0]
        nlinarith [hsd, sq_nonneg ((List.zipWith (fun x y => x * y) a b).sum +
          Real.sqrt ((a.map (fun x => x * x)).sum) *
            Real.sqrt ((b.map (fun x => x * x)).sum))]
      · rw [div_le_one hd0]
        nlinarith [hsd, sq_nonneg ((List.zipWith (fun x y => x * y) a b).sum -
          Real.sqrt ((a.map (fun x => x * x)).sum) *
            Real.sqrt ((b.map (fun x => x * x)).sum))]
  · rw [if_pos hl]
    norm_num

/-- C3 (amended): both `cosineSimilarity` implementations are symmetric on
equal-length vectors (the database one even unconditionally), and the
database-side full cosine formula always returns a value in `[-1, 1]`; the
embeddings-side raw dot product returns a value in `[-1, 1]` provided both
vectors have squared norm at most 1 — for unnormalized vectors it can exceed
the range, see the counterexample. -/
theorem cosineSimilarity_symm_and_range :
    (∀ a b : List ℝ, Database.cosineSimilarity a b = Database.cosineSimilarity b a) ∧
    (∀ a b : List ℝ, -1 ≤ Database.cosineSimilarity a b ∧
      Database.cosineSimilarity a b ≤ 1) ∧
    (∀ a b : List ℚ, a.length = b.length →
      Embeddings.cosineSimilarity a b = Embeddings.cosineSimilarity b a) ∧
    (∀ (a b : List ℚ) (s : ℚ), a.length = b.length →
      (a.map (fun x => x * x)).sum ≤ 1 → (b.map (fun x => x * x)).sum ≤ 1 →
      Embeddings.cosineSimilarity a b = .ok s → -1 ≤ s ∧ s ≤ 1) := by
  refine ⟨dbCosineSimilarity_symm, dbCosineSimilarity_bounds, ?_, ?_⟩
  · intro a b hl
    have hcomm : dotProduct a b = dotProduct b a := by
      unfold dotProduct
      rw [zipWith_mul_comm a b]
    simp [Embeddings.cosineSimilarity, hl, hcomm]
  · intro a b s hl hA hB hs
    have hA0 : 0 ≤ (a.map (fun x => x * x)).sum := sumSq_nonneg a
    have hB0 : 0 ≤ (b.map (fun x => x * x)).sum := sumSq_nonneg b
    have hsd : dotProduct a b = s := by
      have : Embeddings.cosineSimilarity a b = .ok (dotProduct a b) := by
        simp [Embeddings.cosineSimilarity, hl]
      rw [this] at hs
      exact Except.ok.inj hs
    have hcs : (dotProduct a b) ^ 2 ≤
        (a.map (fun x => x * x)).sum * (b.map (fun x => x * x)).sum :=
      list_cauchy_schwarz a b
    have hmul : (a.map (fun x => x * x)).sum * (b.map (fun x => x * x)).sum ≤ 1 :=
      mul_le_one hA hB0 hB
    rw [hsd] at hcs
    constructor <;> nlinarith [sq_nonneg (s + 1), sq_nonneg (s - 1)]

/-- Witness for `cosineSimilarity_symm_and_range` on the normalized
one-dimensional vector `[1]`. -/
theorem cosineSimilarity_symm_and_range_witness :
    Embeddings.cosineSimilarity [(1 : ℚ)] [1] = .ok 1 ∧
    (-1 ≤ (1 : ℚ) ∧ (1 : ℚ) ≤ 1) := by
  have h1 : Embeddings.cosineSimilarity [(1 : ℚ)] [1] = .ok 1 := by
    norm_num [Embeddings.cosineSimilarity, dotProduct]
  exact ⟨h1, cosineSimilarity_symm_and_range.2.2.2 [1] [1] 1 rfl
    (by norm_num) (by norm_num) h1⟩

/-- C3 counterexample: on the equal-length (unnormalized) vectors `[2]` and
`[2]` the embeddings-side `cosineSimilarity` — a raw dot product — returns 4,
which is outside `[-1, 1]`. -/
theorem embeddings_cosineSimilarity_exceeds_one :
    Embeddings.cosineSimilarity [(2 : ℚ)] [2] = .ok 4 ∧ (1 : ℚ) < 4 := by
  constructor
  · norm_num [Embeddings.cosineSimilarity, dotProduct]
  · norm_num

end KERNL
